import Mathlib

/-
  Verification of the IPL scorecard engine (src/ipl_scorecard.py).

  The embedding is a direct shallow translation of the Python source:
  - Python dicts become association lists with unique keys (assocFind / assocSet);
  - Python object references held by a ScoreCard into a Team's roster become
    roster indices (the alias-faithful rendering of a shared mutable Player);
  - Python exceptions become an `Option PyError` second component; mutations
    performed before the raise persist in the returned state, exactly as the
    Python heap keeps them when an exception propagates;
  - Python `int(s)` becomes `pyInt` via `String.toInt?`.
-/

namespace IplScorecard

/-- Exception model for the exceptions this program can raise. -/
inductive PyError where
  | keyError (key : String)
  | valueError (msg : String)
  | attributeError
  | typeError
  deriving DecidableEq

instance {ε α : Type} [DecidableEq ε] [DecidableEq α] : DecidableEq (Except ε α) := fun x y =>
  match x, y with
  | Except.ok a, Except.ok b =>
    if h : a = b then isTrue (congrArg Except.ok h) else isFalse (fun hc => h (Except.ok.inj hc))
  | Except.error a, Except.error b =>
    if h : a = b then isTrue (congrArg Except.error h) else isFalse (fun hc => h (Except.error.inj hc))
  | Except.ok _, Except.error _ => isFalse (fun hc => Except.noConfusion hc)
  | Except.error _, Except.ok _ => isFalse (fun hc => Except.noConfusion hc)

/-- Lookup in an association-list model of a Python dict (keys unique by construction). -/
def assocFind {κ α : Type} [DecidableEq κ] : List (κ × α) → κ → Option α
  | [], _ => none
  | (k', v) :: rest, k => if k' = k then some v else assocFind rest k

/-- Python `d[k] = v`: update an existing key in place, otherwise append the new key. -/
def assocSet {κ α : Type} [DecidableEq κ] : List (κ × α) → κ → α → List (κ × α)
  | [], k, v => [(k, v)]
  | (k', v') :: rest, k, v => if k' = k then (k', v) :: rest else (k', v') :: assocSet rest k v

/-- In-place mutation of the element at index i of a list (no-op when out of range). -/
def listModify {α : Type} : List α → Nat → (α → α) → List α
  | [], _, _ => []
  | a :: l, 0, f => f a :: l
  | a :: l, n + 1, f => a :: listModify l n f

/-- The numeric value of a decimal digit character. -/
def charDigit (c : Char) : Option Nat :=
  if c.isDigit then some (c.toNat - 48) else none

/-- Decimal value of a digit string, accumulator style. -/
def parseDigitsAux : List Char → Nat → Option Nat
  | [], acc => some acc
  | c :: rest, acc =>
    match charDigit c with
    | some d => parseDigitsAux rest (acc * 10 + d)
    | none => none

/-- Integer value of a character sequence: an optional leading minus sign
followed by at least one decimal digit. -/
def pyIntCore : List Char → Option Int
  | [] => none
  | '-' :: rest =>
    match rest with
    | [] => none
    | _ => Option.map (fun n => -(n : Int)) (parseDigitsAux rest 0)
  | cs => Option.map (fun n => (n : Int)) (parseDigitsAux cs 0)

/-- Python `int(s)` on a string field: an integer, or a ValueError for a
non-integer (surrounding whitespace and an explicit plus sign, which CPython
would also accept, do not occur in the feed and are treated as malformed). -/
def pyInt (s : String) : Except PyError Int :=
  match pyIntCore s.data with
  | some n => Except.ok n
  | none => Except.error (PyError.valueError s)

/-- BattingBehaviour (src lines 14-19): per-player batting counters. -/
structure BattingBehaviour where
  runs_scored : Int := 0
  balls_faced : Nat := 0
  boundary_types : List Int := [4, 6]
  boundaries : List (Int × Int) := []
  deriving DecidableEq

/-- BattingBehaviour.add_run (src lines 21-25). Note `self.boundaries` starts as the
empty dict and nothing ever inserts a key, so `self.boundaries[run] += 1` raises
KeyError whenever `run` is 4 or 6; the updates executed before the raise persist. -/
def BattingBehaviour.add_run (b : BattingBehaviour) (run : Int) :
    BattingBehaviour × Option PyError :=
  let b1 : BattingBehaviour :=
    { b with runs_scored := b.runs_scored + run, balls_faced := b.balls_faced + 1 }
  if run ∈ b1.boundary_types then
    match assocFind b1.boundaries run with
    | some c => ({ b1 with boundaries := assocSet b1.boundaries run (c + 1) }, none)
    | none => (b1, some (PyError.keyError (toString run)))
  else (b1, none)

/-- BowlingBehaviour (src lines 37-43): per-player bowling counters. -/
structure BowlingBehaviour where
  wickets_taken : Nat := 0
  runs_accumulated : Int := 0
  balls_done : Nat := 0
  wides : Int := 0
  no_balls : Int := 0
  deriving DecidableEq

/-- BowlingBehaviour.add_ball (src lines 45-46). -/
def BowlingBehaviour.add_ball (b : BowlingBehaviour) : BowlingBehaviour :=
  { b with balls_done := b.balls_done + 1 }

/-- BowlingBehaviour.add_wicket (src lines 48-49). -/
def BowlingBehaviour.add_wicket (b : BowlingBehaviour) : BowlingBehaviour :=
  { b with wickets_taken := b.wickets_taken + 1 }

/-- BowlingBehaviour.add_run (src lines 51-52). -/
def BowlingBehaviour.add_run (b : BowlingBehaviour) (run : Int) : BowlingBehaviour :=
  { b with runs_accumulated := b.runs_accumulated + run }

/-- BowlingBehaviour.add_extra (src lines 57-62): routes wides/noballs into their
counters, then always adds the runs to runs_accumulated; never touches balls_done. -/
def BowlingBehaviour.add_extra (b : BowlingBehaviour) (extra_type : String) (run : Int) :
    BowlingBehaviour :=
  let b1 : BowlingBehaviour :=
    if extra_type = "wides" then { b with wides := b.wides + run }
    else if extra_type = "noballs" then { b with no_balls := b.no_balls + run }
    else b
  BowlingBehaviour.add_run b1 run

/-- Player (src lines 73-77): a name plus fresh batting and bowling counters. -/
structure Player where
  name : String
  batting_behaviour : BattingBehaviour := {}
  bowling_behaviour : BowlingBehaviour := {}
  deriving DecidableEq

/-- Player(name) constructor (src line 74-77). -/
def Player.init (name : String) : Player := { name := name }

/-- Team (src lines 86-91): ordered roster plus team-level aggregates. -/
structure Team where
  players : List Player := []
  extras : List (String × Int) := []
  runs_scored : Int := 0
  wickets : Nat := 0
  deriving DecidableEq

/-- Team.add_player (src lines 93-94): an unconditional append to the roster. -/
def Team.add_player (t : Team) (p : Player) : Team :=
  { t with players := t.players ++ [p] }

/-- Team.add_run (src lines 96-97). -/
def Team.add_run (t : Team) (run : Int) : Team :=
  { t with runs_scored := t.runs_scored + run }

/-- Team.add_extras (src lines 99-103): insert the category or accumulate into it. -/
def Team.add_extras (t : Team) (extra_type : String) (run : Int) : Team :=
  match assocFind t.extras extra_type with
  | none => { t with extras := assocSet t.extras extra_type run }
  | some v => { t with extras := assocSet t.extras extra_type (v + run) }

/-- Team.add_wicket (src lines 105-106). -/
def Team.add_wicket (t : Team) : Team :=
  { t with wickets := t.wickets + 1 }

/-- The over-policy objects the program can construct (src lines 117-130). -/
inductive OverCalculator where
  | sixBallOverCalculator
  deriving DecidableEq

/-- Result of OverCalculator.calculate (src lines 124-130). -/
structure OverResult where
  overs : Nat
  balls : Nat
  deriving DecidableEq

/-- SixBallOverCalculator.calculate (src lines 124-130). -/
def OverCalculator.calculate : OverCalculator → Nat → OverResult
  | .sixBallOverCalculator, balls => { overs := balls / 6, balls := balls % 6 }

/-- get_over_calculator (src lines 133-135): returns a calculator only for 6;
every other configuration falls off the end of the function, i.e. returns None. -/
def get_over_calculator (num_balls : Option Int) : Option OverCalculator :=
  if num_balls = some 6 then some OverCalculator.sixBallOverCalculator else none

/-- ScoreCard (src lines 138-149). The three current-participant fields are
indices into the owning team's roster: Python stores object references into
the same list, and an index is the alias-faithful rendering of that sharing. -/
structure ScoreCard where
  balls_per_over : Option Int := none
  date : Option String := none
  venue : Option String := none
  city : Option String := none
  batting_team : Option Team := none
  bowling_team : Option Team := none
  striker : Option Nat := none
  non_striker : Option Nat := none
  current_bowler : Option Nat := none
  balls : Nat := 0
  deriving DecidableEq

/-- ScoreCard() constructor (src lines 139-149): everything None / zero. -/
def ScoreCard.init : ScoreCard := {}

/-- Mutation of the bowling-team roster entry the current bowler aliases. -/
def modifyBowlingPlayer (sc : ScoreCard) (j : Nat) (f : Player → Player) : ScoreCard :=
  { sc with bowling_team :=
      Option.map (fun t => { t with players := listModify t.players j f }) sc.bowling_team }

/-- ScoreCard.add_run (src lines 166-170): team total, then striker's batting
counters (which may raise the boundary KeyError), then the bowler's runs
conceded and legal ball.  Each step performed before a raise persists. -/
def ScoreCard.add_run (sc : ScoreCard) (run : Int) : ScoreCard × Option PyError :=
  match sc.batting_team with
  | none => (sc, some PyError.attributeError)
  | some bt =>
    let bt1 := Team.add_run bt run
    let sc1 := { sc with batting_team := some bt1 }
    match sc1.striker with
    | none => (sc1, some PyError.attributeError)
    | some i =>
      match bt1.players[i]? with
      | none => (sc1, some PyError.attributeError)
      | some p =>
        let r := BattingBehaviour.add_run p.batting_behaviour run
        let bt2 := { bt1 with players := listModify bt1.players i (fun q => { q with batting_behaviour := r.1 }) }
        let sc2 := { sc1 with batting_team := some bt2 }
        match r.2 with
        | some e => (sc2, some e)
        | none =>
          match sc2.current_bowler with
          | none => (sc2, some PyError.attributeError)
          | some j =>
            (modifyBowlingPlayer sc2 j (fun q =>
              { q with bowling_behaviour :=
                BowlingBehaviour.add_ball (BowlingBehaviour.add_run q.bowling_behaviour run) }),
             none)

/-- ScoreCard.add_extra (src lines 172-176): both teams' extras ledgers, the
batting team total, then the bowler's wide/no-ball counters and runs conceded.
Never touches the match ball counter or any balls_done counter. -/
def ScoreCard.add_extra (sc : ScoreCard) (extra_type : String) (run : Int) :
    ScoreCard × Option PyError :=
  match sc.batting_team with
  | none => (sc, some PyError.attributeError)
  | some bt =>
    let sc1 := { sc with batting_team := some (Team.add_extras bt extra_type run) }
    match sc1.bowling_team with
    | none => (sc1, some PyError.attributeError)
    | some bwt =>
      let sc2 := { sc1 with bowling_team := some (Team.add_extras bwt extra_type run) }
      let bt2 := Team.add_run (Team.add_extras bt extra_type run) run
      let sc3 := { sc2 with batting_team := some bt2 }
      match sc3.current_bowler with
      | none => (sc3, some PyError.attributeError)
      | some j =>
        (modifyBowlingPlayer sc3 j (fun q =>
          { q with bowling_behaviour := BowlingBehaviour.add_extra q.bowling_behaviour extra_type run }),
         none)

/-- ScoreCard.add_wicket (src lines 178-181). -/
def ScoreCard.add_wicket (sc : ScoreCard) : ScoreCard × Option PyError :=
  match sc.batting_team with
  | none => (sc, some PyError.attributeError)
  | some bt =>
    let sc1 := { sc with batting_team := some (Team.add_wicket bt) }
    match sc1.bowling_team with
    | none => (sc1, some PyError.attributeError)
    | some bwt =>
      let sc2 := { sc1 with bowling_team := some (Team.add_wicket bwt) }
      match sc2.current_bowler with
      | none => (sc2, some PyError.attributeError)
      | some j =>
        (modifyBowlingPlayer sc2 j (fun q =>
          { q with bowling_behaviour := BowlingBehaviour.add_wicket q.bowling_behaviour }),
         none)

/-- ScoreCard.add_ball (src lines 183-185): the match ball counter, then the
current bowler's legal-ball counter. -/
def ScoreCard.add_ball (sc : ScoreCard) : ScoreCard × Option PyError :=
  let sc1 := { sc with balls := sc.balls + 1 }
  match sc1.current_bowler with
  | none => (sc1, some PyError.attributeError)
  | some j =>
    (modifyBowlingPlayer sc1 j (fun q =>
      { q with bowling_behaviour := BowlingBehaviour.add_ball q.bowling_behaviour }),
     none)

/-- ScoreCard.get_overs (src lines 187-189): fetch the calculator from
get_over_calculator and call calculate on it; when no calculator was returned
this is Python `None.calculate(...)`, an AttributeError. -/
def ScoreCard.get_overs (sc : ScoreCard) : Except PyError OverResult :=
  match get_over_calculator sc.balls_per_over with
  | some oc => Except.ok (OverCalculator.calculate oc sc.balls)
  | none => Except.error PyError.attributeError

/-- Index of the last roster entry with the given name, starting at offset i
(the Python loops keep overwriting, so the last match wins). -/
def lastIndexFrom : List Player → String → Nat → Option Nat
  | [], _, _ => none
  | p :: rest, name, i =>
    match lastIndexFrom rest name (i + 1) with
    | some k => some k
    | none => if p.name = name then some i else none

/-- Index of the last roster entry with the given name, if any. -/
def lastIndexWithName (ps : List Player) (name : String) : Option Nat :=
  lastIndexFrom ps name 0

/-- ScoreCard.set_current_players (src lines 191-202): three linear scans; a
reference is overwritten only by a matching entry and silently kept otherwise;
no exception is raised for an unknown name (only iterating a None team raises). -/
def ScoreCard.set_current_players (sc : ScoreCard)
    (striker_name non_striker_name bowler_name : String) : ScoreCard × Option PyError :=
  match sc.batting_team with
  | none => (sc, some PyError.typeError)
  | some bt =>
    let newStriker := match lastIndexWithName bt.players striker_name with
      | some k => some k
      | none => sc.striker
    let newNonStriker := match lastIndexWithName bt.players non_striker_name with
      | some k => some k
      | none => sc.non_striker
    let sc1 := { sc with striker := newStriker, non_striker := newNonStriker }
    match sc1.bowling_team with
    | none => (sc1, some PyError.typeError)
    | some bwt =>
      let newBowler := match lastIndexWithName bwt.players bowler_name with
        | some k => some k
        | none => sc.current_bowler
      ({ sc1 with current_bowler := newBowler }, none)

/-- A normalized event record: the decoded row as a Python dict of strings. -/
def RunInfo : Type := List (String × String)

/-- Python `run_info[key]` on the record dict: the value or a KeyError. -/
def dictGet (ri : RunInfo) (k : String) : Except PyError String :=
  match assocFind ri k with
  | some v => Except.ok v
  | none => Except.error (PyError.keyError k)

/-- The three calculator classes registered by get_run_calculators (src 228-272). -/
inductive RunCalculator where
  | normalRunCalculator
  | extraRunCalculator
  | wicketCalculator
  deriving DecidableEq

/-- The match predicates of the three calculators (src lines 230-233, 240-243,
262-265): runs_off_bat parses and is positive; extras parses and is positive;
wicket_type is a non-empty string. Each can raise on lookup or on int(). -/
def RunCalculator.matchPred : RunCalculator → RunInfo → Except PyError Bool
  | .normalRunCalculator, ri => do
    let s ← dictGet ri "runs_off_bat"
    let n ← pyInt s
    pure (decide (0 < n))
  | .extraRunCalculator, ri => do
    let s ← dictGet ri "extras"
    let n ← pyInt s
    pure (decide (0 < n))
  | .wicketCalculator, ri => do
    let s ← dictGet ri "wicket_type"
    pure (decide (s ≠ ""))

/-- The five per-category fields scanned by ExtraRunCalculator (src line 255). -/
def extra_types : List String := ["wides", "noballs", "byes", "legbyes", "penalty"]

/-- The loop of ExtraRunCalculator.calculate_run (src lines 255-258): for each
category field that is present and non-empty, int() it and apply add_extra;
a lookup or parse failure raises, keeping the mutations already applied. -/
def extrasLoop (ri : RunInfo) : ScoreCard → List String → ScoreCard × Option PyError
  | sc, [] => (sc, none)
  | sc, et :: rest =>
    match dictGet ri et with
    | Except.error e => (sc, some e)
    | Except.ok v =>
      if v = "" then extrasLoop ri sc rest
      else
        match pyInt v with
        | Except.error e => (sc, some e)
        | Except.ok n =>
          match ScoreCard.add_extra sc et n with
          | (sc', some e) => (sc', some e)
          | (sc', none) => extrasLoop ri sc' rest

/-- The calculate_run methods (src lines 235-236, 245-258, 267-268). -/
def RunCalculator.calculate_run : RunCalculator → ScoreCard → RunInfo → ScoreCard × Option PyError
  | .normalRunCalculator, sc, ri =>
    match dictGet ri "runs_off_bat" with
    | Except.error e => (sc, some e)
    | Except.ok s =>
      match pyInt s with
      | Except.error e => (sc, some e)
      | Except.ok n => ScoreCard.add_run sc n
  | .extraRunCalculator, sc, ri => extrasLoop ri sc extra_types
  | .wicketCalculator, sc, _ => ScoreCard.add_wicket sc

/-- get_run_calculators (src lines 271-272): the dispatch order is fixed. -/
def get_run_calculators : List RunCalculator :=
  [RunCalculator.normalRunCalculator, RunCalculator.extraRunCalculator, RunCalculator.wicketCalculator]

/-- The dispatch loop of ScoreEntryParser.parse (src lines 315-318): evaluate
each registered predicate in order; on a match run the mutation; a raise in a
predicate or mutation propagates, keeping the state mutated so far. -/
def applyRunCalculators (ri : RunInfo) : ScoreCard → List RunCalculator → ScoreCard × Option PyError
  | sc, [] => (sc, none)
  | sc, c :: rest =>
    match RunCalculator.matchPred c ri with
    | Except.error e => (sc, some e)
    | Except.ok false => applyRunCalculators ri sc rest
    | Except.ok true =>
      match RunCalculator.calculate_run c sc ri with
      | (sc', some e) => (sc', some e)
      | (sc', none) => applyRunCalculators ri sc' rest

/-- One event dispatched through the full registered calculator list. -/
def dispatchEvent (sc : ScoreCard) (ri : RunInfo) : ScoreCard × Option PyError :=
  applyRunCalculators ri sc get_run_calculators

/-- Matches.get_scorecard (src lines 284-288): return the existing entry, else
silently create a fresh ScoreCard under that id and return it. -/
def Matches.get_scorecard (store : List (String × ScoreCard)) (match_id : String) :
    ScoreCard × List (String × ScoreCard) :=
  match assocFind store match_id with
  | some sc => (sc, store)
  | none => (ScoreCard.init, assocSet store match_id ScoreCard.init)

/-- ScoreEntryParser.make_dict (src lines 302-304): returns the empty dict for
every input row. -/
def ScoreEntryParser.make_dict (_request : List String) : RunInfo := []

/-- ScoreEntryParser.parse (src lines 306-320), threading the match registry:
decode the row, look up "match_id" in the decoded dict, fetch the scorecard and
run the dispatch loop on it; the mutated scorecard is visible in the registry. -/
def ScoreEntryParser.parse (request : List String) (store : List (String × ScoreCard)) :
    List (String × ScoreCard) × Except PyError ScoreCard :=
  let run_info := ScoreEntryParser.make_dict request
  match dictGet run_info "match_id" with
  | Except.error e => (store, Except.error e)
  | Except.ok mid =>
    let r := Matches.get_scorecard store mid
    let r2 := dispatchEvent r.1 run_info
    let matches2 := assocSet r.2 mid r2.1
    match r2.2 with
    | some e => (matches2, Except.error e)
    | none => (matches2, Except.ok r2.1)

/-- The four mutation operations the Scorecard API exposes (spec section 4.4). -/
inductive Op where
  | runsOffBat (n : Int)
  | extra (extra_type : String) (n : Int)
  | wicket
  | ballBowled
  deriving DecidableEq

/-- Apply one mutation operation to a scorecard. -/
def applyOp (sc : ScoreCard) : Op → ScoreCard × Option PyError
  | .runsOffBat n => ScoreCard.add_run sc n
  | .extra et n => ScoreCard.add_extra sc et n
  | .wicket => ScoreCard.add_wicket sc
  | .ballBowled => ScoreCard.add_ball sc

/-- Apply a sequence of mutation operations, stopping at the first raise; the
state mutated up to (and partially by) the failing operation is returned. -/
def applyOps : ScoreCard → List Op → ScoreCard × Option PyError
  | sc, [] => (sc, none)
  | sc, o :: rest =>
    match applyOp sc o with
    | (sc', some e) => (sc', some e)
    | (sc', none) => applyOps sc' rest

/-- Sum of the roster's batting runs off bat. -/
def Team.batSum (t : Team) : Int :=
  (t.players.map (fun p => p.batting_behaviour.runs_scored)).sum

/-- Sum over all extras categories recorded in the team's extras ledger. -/
def Team.extrasSum (t : Team) : Int :=
  (t.extras.map Prod.snd).sum

/-- The spec's team-total invariant, on the batting team of a scorecard. -/
def battingInvB (sc : ScoreCard) : Bool :=
  Option.all (fun bt => decide (bt.runs_scored = Team.batSum bt + Team.extrasSum bt)) sc.batting_team

/-- A player whose boundary_types field is as the constructor wrote it. -/
def Player.wfB (p : Player) : Bool :=
  decide (p.batting_behaviour.boundary_types = [4, 6])

/-- A match that has begun (spec section 3): both teams exist, the striker and
the current bowler are live references into their rosters, and every roster
entry still carries the constructor-written boundary_types. -/
def ScoreCard.ready (sc : ScoreCard) : Bool :=
  match sc.batting_team, sc.bowling_team, sc.striker, sc.current_bowler with
  | some bt, some bwt, some i, some j =>
    decide (i < bt.players.length) && decide (j < bwt.players.length) &&
      bt.players.all Player.wfB && bwt.players.all Player.wfB
  | _, _, _, _ => false

/-- Batting-team wickets, as an observable. -/
def battingWickets (sc : ScoreCard) : Option Nat :=
  Option.map Team.wickets sc.batting_team

/-- Batting-team total runs, as an observable. -/
def battingRuns (sc : ScoreCard) : Option Int :=
  Option.map Team.runs_scored sc.batting_team

/-- Total balls faced across a roster. -/
def Team.ballsFacedSum (t : Team) : Nat :=
  (t.players.map (fun p => p.batting_behaviour.balls_faced)).sum

/-- Total balls faced across the batting roster, as an observable. -/
def battingBallsFacedSum (sc : ScoreCard) : Option Nat :=
  Option.map Team.ballsFacedSum sc.batting_team

/-- The legal-ball counters of a roster, in order. -/
def Team.ballsDoneList (t : Team) : List Nat :=
  t.players.map (fun p => p.bowling_behaviour.balls_done)

/-- A fresh team whose roster holds fresh players with the given names. -/
def mkTeam (names : List String) : Team :=
  { players := names.map Player.init }

/-- A concrete just-started match: two fresh two-player teams, participants set. -/
def sampleScoreCard : ScoreCard :=
  { balls_per_over := some 6
    batting_team := some (mkTeam ["A", "B"])
    bowling_team := some (mkTeam ["X", "Y"])
    striker := some 0
    non_striker := some 1
    current_bowler := some 0 }

/-- Sum of the values of an association list. -/
def sndSum {κ : Type} (l : List (κ × Int)) : Int := (l.map Prod.snd).sum

/-- A decoded event whose runs_off_bat field is a valid positive integer while
its extras field holds a non-integer token. -/
def riMalformedExtras : RunInfo := [("runs_off_bat", "3"), ("extras", "x"), ("wicket_type", "")]

/-- A decoded event on which all three registered predicates match and whose
runs_off_bat value is a boundary (4). -/
def riBoundaryWicket : RunInfo := [("runs_off_bat", "4"), ("extras", "1"), ("wides", "1"), ("noballs", ""), ("byes", ""), ("legbyes", ""), ("penalty", ""), ("wicket_type", "bowled")]

/-- A decoded event on which all three registered predicates match and every
mutation succeeds (no boundary value, well-formed category fields). -/
def riAllFire : RunInfo := [("runs_off_bat", "1"), ("extras", "2"), ("wides", "2"), ("noballs", ""), ("byes", ""), ("legbyes", ""), ("penalty", ""), ("wicket_type", "caught")]

/-! ## List and association-list accounting lemmas -/

theorem listModify_length {α : Type} (l : List α) (i : Nat) (f : α → α) :
    (listModify l i f).length = l.length := by
  induction l generalizing i with
  | nil => rfl
  | cons a l ih =>
    cases i with
    | zero => rfl
    | succ n => simp [listModify, ih]

theorem map_listModify_of_fix {α β : Type} (l : List α) (i : Nat) (f : α → α) (g : α → β)
    (h : ∀ a, g (f a) = g a) : (listModify l i f).map g = l.map g := by
  induction l generalizing i with
  | nil => rfl
  | cons a l ih =>
    cases i with
    | zero => simp [listModify, h]
    | succ n => simp [listModify, ih]

theorem sum_map_listModify {α M : Type} [AddCommMonoid M] (l : List α) (i : Nat) (f : α → α)
    (g : α → M) (h : i < l.length) :
    ((listModify l i f).map g).sum + g (l.get ⟨i, h⟩) =
      (l.map g).sum + g (f (l.get ⟨i, h⟩)) := by
  induction l generalizing i with
  | nil => simp at h
  | cons a l ih =>
    cases i with
    | zero =>
      simp only [listModify, List.map_cons, List.sum_cons, List.get]
      abel
    | succ n =>
      have hn : n < l.length := Nat.lt_of_succ_lt_succ h
      have ih' := ih n hn
      simp only [listModify, List.map_cons, List.sum_cons, List.get]
      rw [add_assoc, add_assoc, ih']

theorem all_listModify {α : Type} (l : List α) (i : Nat) (f : α → α) (p : α → Bool)
    (hf : ∀ a, p a = true → p (f a) = true) (hl : l.all p = true) :
    (listModify l i f).all p = true := by
  induction l generalizing i with
  | nil => exact hl
  | cons a l ih =>
    simp only [List.all_cons, Bool.and_eq_true] at hl
    cases i with
    | zero => simp [listModify, List.all_cons, hf a hl.1, hl.2]
    | succ n => simp [listModify, List.all_cons, hl.1, ih n hl.2]

theorem sndSum_assocSet_of_find_none {κ : Type} [DecidableEq κ] (l : List (κ × Int)) (k : κ)
    (v : Int) (h : assocFind l k = none) : sndSum (assocSet l k v) = sndSum l + v := by
  induction l with
  | nil => simp [assocSet, sndSum]
  | cons a l ih =>
    obtain ⟨k', v'⟩ := a
    by_cases hk : k' = k
    · simp [assocFind, hk] at h
    · simp only [assocFind, if_neg hk] at h
      simp only [assocSet, if_neg hk, sndSum, List.map_cons, List.sum_cons]
      have := ih h
      simp only [sndSum] at this
      rw [this]; ring

theorem sndSum_assocSet_of_find_some {κ : Type} [DecidableEq κ] (l : List (κ × Int)) (k : κ)
    (v w : Int) (h : assocFind l k = some w) :
    sndSum (assocSet l k v) + w = sndSum l + v := by
  induction l with
  | nil => simp [assocFind] at h
  | cons a l ih =>
    obtain ⟨k', v'⟩ := a
    by_cases hk : k' = k
    · simp only [assocFind, if_pos hk, Option.some.injEq] at h
      simp only [assocSet, if_pos hk, sndSum, List.map_cons, List.sum_cons]
      rw [h]; ring
    · simp only [assocFind, if_neg hk] at h
      simp only [assocSet, if_neg hk, sndSum, List.map_cons, List.sum_cons]
      have := ih h
      simp only [sndSum] at this
      calc v' + ((assocSet l k v).map Prod.snd).sum + w
          = v' + (((assocSet l k v).map Prod.snd).sum + w) := by ring
        _ = v' + ((l.map Prod.snd).sum + v) := by rw [this]
        _ = v' + (l.map Prod.snd).sum + v := by ring

theorem assocFind_assocSet_self {κ α : Type} [DecidableEq κ] (l : List (κ × α)) (k : κ) (v : α) :
    assocFind (assocSet l k v) k = some v := by
  induction l with
  | nil => simp [assocSet, assocFind]
  | cons a l ih =>
    obtain ⟨k', v'⟩ := a
    by_cases hk : k' = k
    · simp [assocSet, assocFind, hk]
    · simp [assocSet, assocFind, hk, ih]

/-! ## Component facts about the counter updates -/

theorem batting_add_run_runs (b : BattingBehaviour) (run : Int) :
    (BattingBehaviour.add_run b run).1.runs_scored = b.runs_scored + run := by
  unfold BattingBehaviour.add_run
  dsimp only
  split
  · split <;> rfl
  · rfl

theorem batting_add_run_balls (b : BattingBehaviour) (run : Int) :
    (BattingBehaviour.add_run b run).1.balls_faced = b.balls_faced + 1 := by
  unfold BattingBehaviour.add_run
  dsimp only
  split
  · split <;> rfl
  · rfl

theorem batting_add_run_types (b : BattingBehaviour) (run : Int) :
    (BattingBehaviour.add_run b run).1.boundary_types = b.boundary_types := by
  unfold BattingBehaviour.add_run
  dsimp only
  split
  · split <;> rfl
  · rfl

theorem batting_add_run_none (b : BattingBehaviour) (run : Int)
    (ht : b.boundary_types = [4, 6]) (h4 : run ≠ 4) (h6 : run ≠ 6) :
    (BattingBehaviour.add_run b run).2 = none := by
  unfold BattingBehaviour.add_run
  dsimp only
  split
  · rename_i hmem
    rw [ht] at hmem
    simp [h4, h6] at hmem
  · rfl

theorem team_add_extras_players (t : Team) (et : String) (run : Int) :
    (Team.add_extras t et run).players = t.players := by
  unfold Team.add_extras; split <;> rfl

theorem team_add_extras_runs (t : Team) (et : String) (run : Int) :
    (Team.add_extras t et run).runs_scored = t.runs_scored := by
  unfold Team.add_extras; split <;> rfl

theorem team_add_extras_wickets (t : Team) (et : String) (run : Int) :
    (Team.add_extras t et run).wickets = t.wickets := by
  unfold Team.add_extras; split <;> rfl

theorem team_add_extras_extrasSum (t : Team) (et : String) (run : Int) :
    Team.extrasSum (Team.add_extras t et run) = Team.extrasSum t + run := by
  unfold Team.add_extras
  rcases hf : assocFind t.extras et with _ | v
  · simpa [Team.extrasSum, sndSum] using sndSum_assocSet_of_find_none t.extras et run hf
  · have h := sndSum_assocSet_of_find_some t.extras et (v + run) v hf
    simp only [Team.extrasSum, sndSum] at *
    omega

theorem bowling_add_extra_balls (b : BowlingBehaviour) (et : String) (run : Int) :
    (BowlingBehaviour.add_extra b et run).balls_done = b.balls_done := by
  unfold BowlingBehaviour.add_extra BowlingBehaviour.add_run
  split <;> (try split) <;> rfl

/-! ## Started-match characterization and per-mutation effect lemmas -/

theorem ready_iff (sc : ScoreCard) :
    sc.ready = true ↔
      ∃ bt bwt i j, sc.batting_team = some bt ∧ sc.bowling_team = some bwt ∧
        sc.striker = some i ∧ sc.current_bowler = some j ∧
        i < bt.players.length ∧ j < bwt.players.length ∧
        bt.players.all Player.wfB = true ∧ bwt.players.all Player.wfB = true := by
  unfold ScoreCard.ready
  rcases hbt : sc.batting_team with _ | bt <;> rcases hbw : sc.bowling_team with _ | bwt <;>
    rcases hst : sc.striker with _ | i <;> rcases hcb : sc.current_bowler with _ | j <;>
      simp [Bool.and_eq_true, decide_eq_true_eq, and_assoc]

/-- Effect of ScoreCard.add_run on a started match: whether or not the boundary
KeyError fires, the batting team total gains run, the striker's runs off bat
gain run, the striker's balls faced gain one, extras and wickets are untouched,
and the match stays started. -/
theorem add_run_spec (sc : ScoreCard) (run : Int) (hr : sc.ready = true) :
    ∃ bt bt', sc.batting_team = some bt ∧
      (ScoreCard.add_run sc run).1.batting_team = some bt' ∧
      bt'.runs_scored = bt.runs_scored + run ∧
      Team.batSum bt' = Team.batSum bt + run ∧
      Team.extrasSum bt' = Team.extrasSum bt ∧
      bt'.wickets = bt.wickets ∧
      Team.ballsFacedSum bt' = Team.ballsFacedSum bt + 1 ∧
      (ScoreCard.add_run sc run).1.ready = true := by
  obtain ⟨bt, bwt, i, j, hbt, hbw, hst, hcb, hi, hj, hwfb, hwfw⟩ := (ready_iff sc).mp hr
  have hps : (Team.add_run bt run).players = bt.players := rfl
  have hget : (Team.add_run bt run).players[i]? = some bt.players[i] := by
    rw [hps]; exact List.getElem?_eq_getElem hi
  have hpwf : Player.wfB bt.players[i] = true := by
    have := List.all_eq_true.mp hwfb
    exact this _ (List.getElem_mem hi)
  have hbb := batting_add_run_runs bt.players[i].batting_behaviour run
  have hbf := batting_add_run_balls bt.players[i].batting_behaviour run
  have hbty := batting_add_run_types bt.players[i].batting_behaviour run
  refine ⟨bt, { players := listModify bt.players i (fun q => { q with batting_behaviour := (BattingBehaviour.add_run bt.players[i].batting_behaviour run).1 }), extras := bt.extras, runs_scored := bt.runs_scored + run, wickets := bt.wickets }, hbt, ?_⟩
  have hchar : (ScoreCard.add_run sc run).1.batting_team = some { players := listModify bt.players i (fun q => { q with batting_behaviour := (BattingBehaviour.add_run bt.players[i].batting_behaviour run).1 }), extras := bt.extras, runs_scored := bt.runs_scored + run, wickets := bt.wickets } ∧ (ScoreCard.add_run sc run).1.striker = some i ∧ (ScoreCard.add_run sc run).1.current_bowler = some j ∧ ((ScoreCard.add_run sc run).1.bowling_team = some bwt ∨ (ScoreCard.add_run sc run).1.bowling_team = some { bwt with players := listModify bwt.players j (fun q => { q with bowling_behaviour := BowlingBehaviour.add_ball (BowlingBehaviour.add_run q.bowling_behaviour run) }) }) := by
    unfold ScoreCard.add_run
    simp only [hbt, hst, hget, hcb]
    rcases h2 : (BattingBehaviour.add_run bt.players[i].batting_behaviour run).2 with _ | e
    · simp [modifyBowlingPlayer, hbw, Team.add_run]
    · simp [Team.add_run, hbw]
  obtain ⟨hbt2, hst2, hcb2, hbow2⟩ := hchar
  have hlen : (listModify bt.players i (fun q => { q with batting_behaviour := (BattingBehaviour.add_run bt.players[i].batting_behaviour run).1 })).length = bt.players.length := listModify_length _ _ _
  have hwf2 : (listModify bt.players i (fun q => { q with batting_behaviour := (BattingBehaviour.add_run bt.players[i].batting_behaviour run).1 })).all Player.wfB = true := by
    refine all_listModify _ _ _ _ ?_ hwfb
    intro a _
    simp only [Player.wfB, decide_eq_true_eq] at *
    rw [hbty]
    exact hpwf
  refine ⟨hbt2, rfl, ?_, rfl, rfl, ?_, ?_⟩
  · have h := sum_map_listModify bt.players i (fun q => { q with batting_behaviour := (BattingBehaviour.add_run bt.players[i].batting_behaviour run).1 }) (fun p => p.batting_behaviour.runs_scored) hi
    simp only [List.get_eq_getElem] at h
    simp only [Team.batSum]
    simp only [hbb] at h
    omega
  · have h := sum_map_listModify bt.players i (fun q => { q with batting_behaviour := (BattingBehaviour.add_run bt.players[i].batting_behaviour run).1 }) (fun p => p.batting_behaviour.balls_faced) hi
    simp only [List.get_eq_getElem] at h
    simp only [Team.ballsFacedSum]
    simp only [hbf] at h
    omega
  · rw [ready_iff]
    rcases hbow2 with hb | hb
    · exact ⟨_, bwt, i, j, hbt2, hb, hst2, hcb2, by simpa [hlen] using hi, hj, hwf2, hwfw⟩
    · refine ⟨_, _, i, j, hbt2, hb, hst2, hcb2, by simpa [hlen] using hi, ?_, hwf2, ?_⟩
      · simpa [listModify_length] using hj
      · refine all_listModify _ _ _ _ ?_ hwfw
        intro a ha
        simpa [Player.wfB] using ha

theorem modifyBowlingPlayer_batting (sc : ScoreCard) (j : Nat) (f : Player → Player) :
    (modifyBowlingPlayer sc j f).batting_team = sc.batting_team := rfl

theorem modifyBowlingPlayer_balls (sc : ScoreCard) (j : Nat) (f : Player → Player) :
    (modifyBowlingPlayer sc j f).balls = sc.balls := rfl

theorem modifyBowlingPlayer_bowling (sc : ScoreCard) (j : Nat) (f : Player → Player) :
    (modifyBowlingPlayer sc j f).bowling_team =
      Option.map (fun t => { t with players := listModify t.players j f }) sc.bowling_team := rfl

/-- On a started match, add_run raises no exception when the run value is not a
boundary value (the boundary branch is the only raising path). -/
theorem add_run_none (sc : ScoreCard) (run : Int) (hr : sc.ready = true)
    (h4 : run ≠ 4) (h6 : run ≠ 6) : (ScoreCard.add_run sc run).2 = none := by
  obtain ⟨bt, bwt, i, j, hbt, hbw, hst, hcb, hi, hj, hwfb, hwfw⟩ := (ready_iff sc).mp hr
  have hget : (Team.add_run bt run).players[i]? = some bt.players[i] :=
    List.getElem?_eq_getElem hi
  have hpwf : bt.players[i].batting_behaviour.boundary_types = [4, 6] := by
    have := List.all_eq_true.mp hwfb _ (List.getElem_mem hi)
    simpa [Player.wfB] using this
  have h2 : (BattingBehaviour.add_run bt.players[i].batting_behaviour run).2 = none :=
    batting_add_run_none _ _ hpwf h4 h6
  unfold ScoreCard.add_run
  simp only [hbt, hst, hget, hcb, h2]

/-- Effect of ScoreCard.add_extra on a started match: it succeeds, the batting
team total gains run, the batting extras ledger gains run under that category,
no batter counter moves, no wicket moves, and the match stays started. -/
theorem add_extra_spec (sc : ScoreCard) (et : String) (run : Int) (hr : sc.ready = true) :
    ∃ bt bt', sc.batting_team = some bt ∧
      (ScoreCard.add_extra sc et run).1.batting_team = some bt' ∧
      bt'.runs_scored = bt.runs_scored + run ∧
      Team.batSum bt' = Team.batSum bt ∧
      Team.extrasSum bt' = Team.extrasSum bt + run ∧
      bt'.wickets = bt.wickets ∧
      Team.ballsFacedSum bt' = Team.ballsFacedSum bt ∧
      (ScoreCard.add_extra sc et run).1.ready = true ∧
      (ScoreCard.add_extra sc et run).2 = none := by
  obtain ⟨bt, bwt, i, j, hbt, hbw, hst, hcb, hi, hj, hwfb, hwfw⟩ := (ready_iff sc).mp hr
  have hchar : (ScoreCard.add_extra sc et run).1.batting_team = some (Team.add_run (Team.add_extras bt et run) run) ∧ (ScoreCard.add_extra sc et run).1.striker = some i ∧ (ScoreCard.add_extra sc et run).1.current_bowler = some j ∧ (ScoreCard.add_extra sc et run).1.bowling_team = some { Team.add_extras bwt et run with players := listModify (Team.add_extras bwt et run).players j (fun q => { q with bowling_behaviour := BowlingBehaviour.add_extra q.bowling_behaviour et run }) } ∧ (ScoreCard.add_extra sc et run).2 = none := by
    unfold ScoreCard.add_extra
    simp [hbt, hbw, hcb, hst, modifyBowlingPlayer]
  obtain ⟨hbt2, hst2, hcb2, hbw2, hok⟩ := hchar
  refine ⟨bt, _, hbt, hbt2, ?_, ?_, ?_, ?_, ?_, ?_, hok⟩
  · simp [Team.add_run, team_add_extras_runs]
  · simp [Team.batSum, Team.add_run, team_add_extras_players]
  · have := team_add_extras_extrasSum bt et run
    simp only [Team.extrasSum, Team.add_run] at *
    simpa using this
  · simp [Team.add_run, team_add_extras_wickets]
  · simp [Team.ballsFacedSum, Team.add_run, team_add_extras_players]
  · rw [ready_iff]
    refine ⟨_, _, i, j, hbt2, hbw2, hst2, hcb2, ?_, ?_, ?_, ?_⟩
    · simpa [Team.add_run, team_add_extras_players] using hi
    · simpa [listModify_length, team_add_extras_players] using hj
    · simpa [Team.add_run, team_add_extras_players] using hwfb
    · rw [show ({ Team.add_extras bwt et run with players := listModify (Team.add_extras bwt et run).players j (fun q => { q with bowling_behaviour := BowlingBehaviour.add_extra q.bowling_behaviour et run }) } : Team).players = listModify (Team.add_extras bwt et run).players j (fun q => { q with bowling_behaviour := BowlingBehaviour.add_extra q.bowling_behaviour et run }) from rfl]
      rw [team_add_extras_players]
      refine all_listModify _ _ _ _ ?_ hwfw
      intro a ha
      simpa [Player.wfB] using ha

/-- Effect of ScoreCard.add_wicket on a started match: it succeeds, both wicket
totals advance, and nothing about the batting team's runs or batters moves. -/
theorem add_wicket_spec (sc : ScoreCard) (hr : sc.ready = true) :
    ∃ bt bt', sc.batting_team = some bt ∧
      (ScoreCard.add_wicket sc).1.batting_team = some bt' ∧
      bt'.runs_scored = bt.runs_scored ∧
      Team.batSum bt' = Team.batSum bt ∧
      Team.extrasSum bt' = Team.extrasSum bt ∧
      bt'.wickets = bt.wickets + 1 ∧
      Team.ballsFacedSum bt' = Team.ballsFacedSum bt ∧
      (ScoreCard.add_wicket sc).1.ready = true ∧
      (ScoreCard.add_wicket sc).2 = none := by
  obtain ⟨bt, bwt, i, j, hbt, hbw, hst, hcb, hi, hj, hwfb, hwfw⟩ := (ready_iff sc).mp hr
  have hchar : (ScoreCard.add_wicket sc).1.batting_team = some (Team.add_wicket bt) ∧ (ScoreCard.add_wicket sc).1.striker = some i ∧ (ScoreCard.add_wicket sc).1.current_bowler = some j ∧ (ScoreCard.add_wicket sc).1.bowling_team = some { Team.add_wicket bwt with players := listModify (Team.add_wicket bwt).players j (fun q => { q with bowling_behaviour := BowlingBehaviour.add_wicket q.bowling_behaviour }) } ∧ (ScoreCard.add_wicket sc).2 = none := by
    unfold ScoreCard.add_wicket
    simp [hbt, hbw, hcb, hst, modifyBowlingPlayer]
  obtain ⟨hbt2, hst2, hcb2, hbw2, hok⟩ := hchar
  refine ⟨bt, _, hbt, hbt2, rfl, rfl, rfl, rfl, rfl, ?_, hok⟩
  rw [ready_iff]
  refine ⟨_, _, i, j, hbt2, hbw2, hst2, hcb2, hi, ?_, hwfb, ?_⟩
  · simpa [listModify_length, Team.add_wicket] using hj
  · rw [show ({ Team.add_wicket bwt with players := listModify (Team.add_wicket bwt).players j (fun q => { q with bowling_behaviour := BowlingBehaviour.add_wicket q.bowling_behaviour }) } : Team).players = listModify (Team.add_wicket bwt).players j (fun q => { q with bowling_behaviour := BowlingBehaviour.add_wicket q.bowling_behaviour }) from rfl]
    refine all_listModify _ _ _ _ ?_ hwfw
    intro a ha
    simpa [Player.wfB] using ha

/-- Effect of ScoreCard.add_ball on a started match: it succeeds, the batting
team is untouched, the match ball counter advances, and the match stays started. -/
theorem add_ball_spec (sc : ScoreCard) (hr : sc.ready = true) :
    (ScoreCard.add_ball sc).1.batting_team = sc.batting_team ∧
      (ScoreCard.add_ball sc).1.balls = sc.balls + 1 ∧
      (ScoreCard.add_ball sc).1.ready = true ∧
      (ScoreCard.add_ball sc).2 = none := by
  obtain ⟨bt, bwt, i, j, hbt, hbw, hst, hcb, hi, hj, hwfb, hwfw⟩ := (ready_iff sc).mp hr
  have hchar : (ScoreCard.add_ball sc).1.batting_team = sc.batting_team ∧ (ScoreCard.add_ball sc).1.striker = some i ∧ (ScoreCard.add_ball sc).1.current_bowler = some j ∧ (ScoreCard.add_ball sc).1.bowling_team = some { bwt with players := listModify bwt.players j (fun q => { q with bowling_behaviour := BowlingBehaviour.add_ball q.bowling_behaviour }) } ∧ (ScoreCard.add_ball sc).1.balls = sc.balls + 1 ∧ (ScoreCard.add_ball sc).2 = none := by
    unfold ScoreCard.add_ball
    simp [hbw, hcb, hst, modifyBowlingPlayer]
  obtain ⟨hbt2, hst2, hcb2, hbw2, hballs, hok⟩ := hchar
  refine ⟨hbt2, hballs, ?_, hok⟩
  rw [ready_iff]
  refine ⟨bt, _, i, j, by rw [hbt2, hbt], hbw2, hst2, hcb2, hi, ?_, hwfb, ?_⟩
  · simpa [listModify_length] using hj
  · rw [show ({ bwt with players := listModify bwt.players j (fun q => { q with bowling_behaviour := BowlingBehaviour.add_ball q.bowling_behaviour }) } : Team).players = listModify bwt.players j (fun q => { q with bowling_behaviour := BowlingBehaviour.add_ball q.bowling_behaviour }) from rfl]
    refine all_listModify _ _ _ _ ?_ hwfw
    intro a ha
    simpa [Player.wfB] using ha

theorem battingInvB_iff (sc : ScoreCard) (bt : Team) (hbt : sc.batting_team = some bt) :
    battingInvB sc = true ↔ bt.runs_scored = Team.batSum bt + Team.extrasSum bt := by
  simp [battingInvB, hbt, Option.all]

/-- Each of the four mutations keeps the match started and keeps the batting
team's total equal to the sum of its batters' runs off bat plus its extras. -/
theorem applyOp_preserves (sc : ScoreCard) (o : Op) (hr : sc.ready = true)
    (hinv : battingInvB sc = true) :
    (applyOp sc o).1.ready = true ∧ battingInvB (applyOp sc o).1 = true := by
  cases o with
  | runsOffBat n =>
    simp only [applyOp]
    obtain ⟨bt, bt', hbt, hbt', hruns, hbat, hext, hw, hbf, hr'⟩ := add_run_spec sc n hr
    refine ⟨hr', ?_⟩
    rw [battingInvB_iff _ _ hbt']
    have h0 := (battingInvB_iff _ _ hbt).mp hinv
    omega
  | extra et n =>
    simp only [applyOp]
    obtain ⟨bt, bt', hbt, hbt', hruns, hbat, hext, hw, hbf, hr', hok⟩ := add_extra_spec sc et n hr
    refine ⟨hr', ?_⟩
    rw [battingInvB_iff _ _ hbt']
    have h0 := (battingInvB_iff _ _ hbt).mp hinv
    omega
  | wicket =>
    simp only [applyOp]
    obtain ⟨bt, bt', hbt, hbt', hruns, hbat, hext, hw, hbf, hr', hok⟩ := add_wicket_spec sc hr
    refine ⟨hr', ?_⟩
    rw [battingInvB_iff _ _ hbt']
    have h0 := (battingInvB_iff _ _ hbt).mp hinv
    omega
  | ballBowled =>
    simp only [applyOp]
    obtain ⟨hbt2, hballs, hr', hok⟩ := add_ball_spec sc hr
    refine ⟨hr', ?_⟩
    unfold battingInvB
    rw [hbt2]
    exact hinv

/-- Sequence form of applyOp_preserves: along any sequence of mutations, even
one that ends in a raise, the started-match shape and the team-total equation
survive (every prefix of a sequence is itself a sequence, so this gives the
invariant after each individual mutation). -/
theorem applyOps_preserves (sc : ScoreCard) (ops : List Op) (hr : sc.ready = true)
    (hinv : battingInvB sc = true) :
    (applyOps sc ops).1.ready = true ∧ battingInvB (applyOps sc ops).1 = true := by
  induction ops generalizing sc with
  | nil => exact ⟨hr, hinv⟩
  | cons o rest ih =>
    have h := applyOp_preserves sc o hr hinv
    unfold applyOps
    rcases he : applyOp sc o with ⟨sc', e⟩
    rw [he] at h
    rcases e with _ | e
    · simpa using ih sc' h.1 h.2
    · simpa using h

/-- Frame of ScoreCard.add_extra, on any state and on any exit path: batting
wickets and the batters' balls-faced counters are untouched. -/
theorem add_extra_frame (sc : ScoreCard) (et : String) (n : Int) :
    battingWickets (ScoreCard.add_extra sc et n).1 = battingWickets sc ∧
      battingBallsFacedSum (ScoreCard.add_extra sc et n).1 = battingBallsFacedSum sc := by
  unfold ScoreCard.add_extra
  rcases hbt : sc.batting_team with _ | bt
  · exact ⟨rfl, rfl⟩
  · simp only [hbt]
    rcases hbw : sc.bowling_team with _ | bwt <;> simp only [hbw]
    · constructor <;> simp [battingWickets, battingBallsFacedSum, Team.ballsFacedSum, hbt, team_add_extras_wickets, team_add_extras_players]
    · rcases hcb : sc.current_bowler with _ | j <;> simp only [hcb]
      · constructor <;> simp [battingWickets, battingBallsFacedSum, Team.ballsFacedSum, hbt, team_add_extras_wickets, team_add_extras_players, Team.add_run]
      · constructor <;> simp [battingWickets, battingBallsFacedSum, Team.ballsFacedSum, hbt, team_add_extras_wickets, team_add_extras_players, Team.add_run, modifyBowlingPlayer]

/-- Frame of the ExtraRunCalculator loop: across every category it applies (and
any exit path), batting wickets and the batters' balls-faced counters are
untouched. -/
theorem extrasLoop_frame (ri : RunInfo) (sc : ScoreCard) (ets : List String) :
    battingWickets (extrasLoop ri sc ets).1 = battingWickets sc ∧
      battingBallsFacedSum (extrasLoop ri sc ets).1 = battingBallsFacedSum sc := by
  induction ets generalizing sc with
  | nil => exact ⟨rfl, rfl⟩
  | cons et rest ih =>
    unfold extrasLoop
    rcases hdg : dictGet ri et with e | v
    · exact ⟨rfl, rfl⟩
    · simp only
      by_cases hv : v = ""
      · simpa [hv] using ih sc
      · simp only [if_neg hv]
        rcases hpi : pyInt v with e | m
        · exact ⟨rfl, rfl⟩
        · dsimp only
          rcases hae : ScoreCard.add_extra sc et m with ⟨sc', e'⟩
          have hf := add_extra_frame sc et m
          rw [hae] at hf
          rcases e' with _ | e'
          · dsimp only
            have h2 := ih sc'
            exact ⟨h2.1.trans hf.1, h2.2.trans hf.2⟩
          · exact hf

/-- Effect of ScoreCard.add_wicket on batting observables, on any state and any
exit path: wickets advance by one (when a batting team exists at all) and the
batters' balls-faced counters are untouched. -/
theorem add_wicket_effect (sc : ScoreCard) :
    battingWickets (ScoreCard.add_wicket sc).1 = Option.map (fun w => w + 1) (battingWickets sc) ∧
      battingBallsFacedSum (ScoreCard.add_wicket sc).1 = battingBallsFacedSum sc := by
  unfold ScoreCard.add_wicket
  rcases hbt : sc.batting_team with _ | bt
  · simp [battingWickets, battingBallsFacedSum, hbt]
  · simp only [hbt]
    rcases hbw : sc.bowling_team with _ | bwt <;> simp only [hbw]
    · constructor <;> simp [battingWickets, battingBallsFacedSum, Team.ballsFacedSum, hbt, Team.add_wicket]
    · rcases hcb : sc.current_bowler with _ | j <;> simp only [hcb]
      · constructor <;> simp [battingWickets, battingBallsFacedSum, Team.ballsFacedSum, hbt, Team.add_wicket]
      · constructor <;> simp [battingWickets, battingBallsFacedSum, Team.ballsFacedSum, hbt, Team.add_wicket, modifyBowlingPlayer]

/-- The NormalRunCalculator predicate evaluates to a match when runs_off_bat
is present and parses to a positive integer. -/
theorem normal_match_true (ri : RunInfo) (rs : String) (n : Int)
    (hrun : dictGet ri "runs_off_bat" = Except.ok rs) (hn : pyInt rs = Except.ok n)
    (hpos : 0 < n) :
    RunCalculator.matchPred RunCalculator.normalRunCalculator ri = Except.ok true := by
  unfold RunCalculator.matchPred
  simp [hrun, hn, hpos, Except.bind, bind, Functor.map, Except.map, pure, Except.pure]

/-- The ExtraRunCalculator predicate raises when the extras field is present
but does not parse as an integer. -/
theorem extra_match_error (ri : RunInfo) (es : String) (err : PyError)
    (hext : dictGet ri "extras" = Except.ok es) (hbad : pyInt es = Except.error err) :
    RunCalculator.matchPred RunCalculator.extraRunCalculator ri = Except.error err := by
  unfold RunCalculator.matchPred
  simp [hext, hbad, Except.bind, bind, Functor.map, Except.map, pure, Except.pure]

/-- A successful NormalRunCalculator mutation keeps the match started, leaves
wickets alone, and advances the batting roster's balls faced by one. -/
theorem normal_calc_spec (sc sc1 : ScoreCard) (ri : RunInfo) (hr : sc.ready = true)
    (h : RunCalculator.calculate_run RunCalculator.normalRunCalculator sc ri = (sc1, none)) :
    sc1.ready = true ∧ battingWickets sc1 = battingWickets sc ∧
      battingBallsFacedSum sc1 = Option.map (fun x => x + 1) (battingBallsFacedSum sc) := by
  unfold RunCalculator.calculate_run at h
  dsimp only at h
  rcases hdg : dictGet ri "runs_off_bat" with e | s
  · rw [hdg] at h
    exact absurd (congrArg Prod.snd h) (by simp)
  · rw [hdg] at h
    dsimp only at h
    rcases hpi : pyInt s with e | n
    · rw [hpi] at h
      exact absurd (congrArg Prod.snd h) (by simp)
    · rw [hpi] at h
      dsimp only at h
      obtain ⟨bt, bt', hbt, hbt', hruns, hbat, hext, hw, hbf, hr'⟩ := add_run_spec sc n hr
      have h1 : (ScoreCard.add_run sc n).1 = sc1 := congrArg Prod.fst h
      rw [h1] at hbt' hr'
      refine ⟨hr', ?_, ?_⟩
      · simp [battingWickets, hbt, hbt', hw]
      · simp only [battingBallsFacedSum, hbt, hbt', Option.map_some]
        exact congrArg some hbf

/-! ## Claim theorems -/

/-- C1: the claim says applyRunsOffBat(n) increments the striker's boundary
bucket when n ∈ {4, 6}; on the code, the boundaries dict starts empty and is
never seeded, so `self.boundaries[run] += 1` raises KeyError on every boundary.
Evaluated at the failing input (a just-started match, runs off bat = 4): the
call raises KeyError("4") and no boundary bucket exists afterwards. -/
theorem claim_C1_boundary_bucket_keyError :
    (ScoreCard.add_run sampleScoreCard 4).2 = some (PyError.keyError "4") ∧
      Option.map (fun t => t.players.map (fun p => p.batting_behaviour.boundaries))
        (ScoreCard.add_run sampleScoreCard 4).1.batting_team = some [[], []] := by
  constructor <;> decide

/-- C5 counterexample: the claim says adding a player whose name is already on
the roster yields exactly one roster entry for that name; on the code,
Team.add_player is a plain append, so adding "A" twice yields two entries. -/
theorem claim_C5_counterexample :
    ((Team.add_player (Team.add_player ({} : Team) (Player.init "A")) (Player.init "A")).players.countP
      (fun q => q.name == "A")) = 2 := by
  decide

/-- C5 amended: Team.add_player is not idempotent by name — every call appends
exactly one roster entry (so a duplicate name yields a duplicate entry), while
all existing entries, and hence their accumulated statistics, are untouched. -/
theorem claim_C5_append_roster (t : Team) (p : Player) :
    (Team.add_player t p).players.length = t.players.length + 1 ∧
      (Team.add_player t p).players.take t.players.length = t.players ∧
      (Team.add_player t p).players.countP (fun q => q.name == p.name) =
        t.players.countP (fun q => q.name == p.name) + 1 := by
  refine ⟨by simp [Team.add_player], ?_, ?_⟩
  · simp [Team.add_player, List.take_left]
  · simp [Team.add_player, List.countP_append, List.countP_cons]

/-- C6 counterexample: the claim says a score event for an unknown match id
surfaces an UnknownMatch error; on the code, Matches.get_scorecard on an empty
registry silently creates and returns a fresh ScoreCard under that id. -/
theorem claim_C6_counterexample :
    Matches.get_scorecard [] "m1" = (ScoreCard.init, [("m1", ScoreCard.init)]) := rfl

/-- C6 amended: Matches.get_scorecard never signals an unknown match id — for
any id absent from the registry it silently creates a fresh ScoreCard, returns
it, and registers it under that id (lazy creation). -/
theorem claim_C6_lazy_creation (store : List (String × ScoreCard)) (mid : String)
    (h : assocFind store mid = none) :
    (Matches.get_scorecard store mid).1 = ScoreCard.init ∧
      assocFind (Matches.get_scorecard store mid).2 mid = some ScoreCard.init := by
  unfold Matches.get_scorecard
  rw [h]
  exact ⟨rfl, assocFind_assocSet_self _ _ _⟩

/-- C6 witness: the lazy creation behaviour at a concrete registry and id. -/
theorem claim_C6_witness :
    assocFind ([] : List (String × ScoreCard)) "m2" = none ∧
      (Matches.get_scorecard [] "m2").1 = ScoreCard.init ∧
      assocFind (Matches.get_scorecard [] "m2").2 "m2" = some ScoreCard.init :=
  ⟨rfl, (claim_C6_lazy_creation [] "m2" rfl).1, (claim_C6_lazy_creation [] "m2" rfl).2⟩

/-- C7 counterexample: the claim says an unsupported over length is surfaced as
an explicit configuration error; on the code, get_over_calculator on 5 returns
the absent handler (None) and get_overs then dies on `None.calculate`, an
AttributeError rather than a constructed configuration error. -/
theorem claim_C7_counterexample :
    get_over_calculator (some 5) = none ∧
      ScoreCard.get_overs { ScoreCard.init with balls_per_over := some 5 } =
        Except.error PyError.attributeError := by
  constructor <;> rfl

/-- C7 amended: for every configured over length other than 6,
get_over_calculator returns no handler at all, and requesting overs fails with
the AttributeError of calling calculate on the absent handler — not with an
explicit configuration error. -/
theorem claim_C7_absent_over_handler (bpo : Option Int) (h : bpo ≠ some 6) :
    get_over_calculator bpo = none ∧
      ∀ sc : ScoreCard, sc.balls_per_over = bpo →
        ScoreCard.get_overs sc = Except.error PyError.attributeError := by
  have h1 : get_over_calculator bpo = none := by simp [get_over_calculator, h]
  refine ⟨h1, fun sc hsc => ?_⟩
  unfold ScoreCard.get_overs
  rw [hsc, h1]

/-- C7 witness: the absent handler at the concrete over length 8. -/
theorem claim_C7_witness :
    (some 8 : Option Int) ≠ some 6 ∧ get_over_calculator (some 8) = none ∧
      ScoreCard.get_overs { ScoreCard.init with balls_per_over := some 8 } =
        Except.error PyError.attributeError :=
  ⟨by decide, (claim_C7_absent_over_handler (some 8) (by decide)).1,
    (claim_C7_absent_over_handler (some 8) (by decide)).2 _ rfl⟩

/-- C8: applyExtra leaves the match ball counter and every player's legal-ball
counter (on both rosters) unchanged, for every state, category and amount —
only add_run and add_ball ever touch a legal-ball counter. -/
theorem claim_C8_extras_frame (sc : ScoreCard) (extra_type : String) (n : Int) :
    (ScoreCard.add_extra sc extra_type n).1.balls = sc.balls ∧
      Option.map Team.ballsDoneList (ScoreCard.add_extra sc extra_type n).1.batting_team =
        Option.map Team.ballsDoneList sc.batting_team ∧
      Option.map Team.ballsDoneList (ScoreCard.add_extra sc extra_type n).1.bowling_team =
        Option.map Team.ballsDoneList sc.bowling_team := by
  unfold ScoreCard.add_extra
  rcases hbt : sc.batting_team with _ | bt
  · refine ⟨?_, ?_, ?_⟩ <;> first | trivial | simp [hbt]
  · simp only [hbt]
    rcases hbw : sc.bowling_team with _ | bwt <;> simp only [hbw]
    · refine ⟨?_, ?_, ?_⟩ <;>
        first
          | trivial
          | simp [Team.ballsDoneList, team_add_extras_players, hbt, hbw]
    · rcases hcb : sc.current_bowler with _ | j <;> simp only [hcb]
      · refine ⟨?_, ?_, ?_⟩ <;>
          first
            | trivial
            | simp [Team.ballsDoneList, team_add_extras_players, Team.add_run, hbt, hbw]
      · refine ⟨?_, ?_, ?_⟩
        · trivial
        · rw [modifyBowlingPlayer_batting]
          simp [Team.ballsDoneList, team_add_extras_players, Team.add_run]
        · rw [modifyBowlingPlayer_bowling]
          simp only [Option.map_some, Option.map_eq_map, Option.map, Team.ballsDoneList]
          rw [team_add_extras_players]
          exact congrArg some (map_listModify_of_fix _ _ _ _ (fun a => by simp [bowling_add_extra_balls]))

/-- C10: ScoreEntryParser.parse raises before any scorecard mutation on every
input row — make_dict returns the empty dict, so the lookup of "match_id"
raises KeyError unconditionally and the registry is left exactly as it was. -/
theorem claim_C10_parse_always_fails (request : List String)
    (store : List (String × ScoreCard)) :
    ScoreEntryParser.parse request store =
      (store, Except.error (PyError.keyError "match_id")) := rfl

/-- C2: along every sequence of the four mutation operations applied to a
started match whose batting team satisfies the total-runs equation, the batting
team's total runs remain equal to the sum of its batters' runs off bat plus the
sum of all extras categories recorded for it; since every prefix of a sequence
is itself a sequence, the equation holds after each individual mutation, and it
also holds for the partially applied state when a mutation raises. -/
theorem claim_C2_team_total_invariant (sc : ScoreCard) (ops : List Op)
    (hr : sc.ready = true) (hinv : battingInvB sc = true) :
    battingInvB (applyOps sc ops).1 = true :=
  (applyOps_preserves sc ops hr hinv).2

/-- C2 witness: the invariant across a concrete run, wide, wicket and legal
ball applied to a concrete just-started match. -/
theorem claim_C2_witness :
    ScoreCard.ready sampleScoreCard = true ∧ battingInvB sampleScoreCard = true ∧
      battingInvB (applyOps sampleScoreCard
        [Op.runsOffBat 1, Op.extra "wides" 1, Op.wicket, Op.ballBowled]).1 = true :=
  ⟨by decide, by decide,
    claim_C2_team_total_invariant sampleScoreCard
      [Op.runsOffBat 1, Op.extra "wides" 1, Op.wicket, Op.ballBowled] (by decide) (by decide)⟩

/-- C4 counterexample: the claim says set_current_players fails with a
LookupError whenever a name is absent and that no reference changes; on the
code, with "Z" absent from the batting roster the call returns with no error
and still moves the striker reference to "B". -/
theorem claim_C4_counterexample :
    ScoreCard.set_current_players sampleScoreCard "B" "Z" "X" =
      ({ sampleScoreCard with striker := some 1 }, none) := by
  decide

/-- C4 amended: when both teams exist, set_current_players never fails; each of
the three references is silently left unchanged when no roster entry carries
the requested name, while references whose names are found are still updated. -/
theorem claim_C4_silent_participant_update (sc : ScoreCard) (bt bwt : Team)
    (hbt : sc.batting_team = some bt) (hbw : sc.bowling_team = some bwt)
    (sn nsn bn : String) :
    (ScoreCard.set_current_players sc sn nsn bn).2 = none ∧
      (lastIndexWithName bt.players sn = none →
        (ScoreCard.set_current_players sc sn nsn bn).1.striker = sc.striker) ∧
      (lastIndexWithName bt.players nsn = none →
        (ScoreCard.set_current_players sc sn nsn bn).1.non_striker = sc.non_striker) ∧
      (lastIndexWithName bwt.players bn = none →
        (ScoreCard.set_current_players sc sn nsn bn).1.current_bowler = sc.current_bowler) := by
  unfold ScoreCard.set_current_players
  simp only [hbt, hbw]
  refine ⟨?_, ?_, ?_, ?_⟩
  · trivial
  all_goals intro h
  all_goals simp [h]

/-- C4 witness: a concrete call with an unknown striker name returns without
error and leaves the striker reference unchanged. -/
theorem claim_C4_witness :
    lastIndexWithName (mkTeam ["A", "B"]).players "Q" = none ∧
      (ScoreCard.set_current_players sampleScoreCard "Q" "B" "Y").2 = none ∧
      (ScoreCard.set_current_players sampleScoreCard "Q" "B" "Y").1.striker =
        sampleScoreCard.striker :=
  ⟨by decide,
    (claim_C4_silent_participant_update sampleScoreCard _ _ rfl rfl "Q" "B" "Y").1,
    (claim_C4_silent_participant_update sampleScoreCard _ _ rfl rfl "Q" "B" "Y").2.1 (by decide)⟩

/-- C3 counterexample: the claim says a malformed run/extra field rejects the
event wholesale with no partial application; on the code, dispatching an event
with runs_off_bat "3" and extras "x" onto a fresh started match surfaces the
ValueError but has already applied the runs-off-bat mutation: the batting
total stands at 3, not 0. -/
theorem claim_C3_counterexample :
    (dispatchEvent sampleScoreCard riMalformedExtras).2 = some (PyError.valueError "x") ∧
      battingRuns (dispatchEvent sampleScoreCard riMalformedExtras).1 = some 3 ∧
      battingRuns sampleScoreCard = some 0 := by
  refine ⟨by decide, by decide, by decide⟩

/-- C3 amended: a malformed extras field surfaces its error and stops the
dispatch, but the event is not rejected wholesale — the mutations of
calculators earlier in the dispatch order persist; in particular, when
runs_off_bat is a valid positive integer (not a boundary value, which would
raise first) and the extras field is malformed, the runs-off-bat mutation has
already been applied when the error surfaces. -/
theorem claim_C3_mutation_persists (sc : ScoreCard) (ri : RunInfo) (rs es : String)
    (n : Int) (err : PyError) (hr : sc.ready = true)
    (hrun : dictGet ri "runs_off_bat" = Except.ok rs) (hn : pyInt rs = Except.ok n)
    (hpos : 0 < n) (h4 : n ≠ 4) (h6 : n ≠ 6)
    (hext : dictGet ri "extras" = Except.ok es) (hbad : pyInt es = Except.error err) :
    (dispatchEvent sc ri).2 = some err ∧
      battingRuns (dispatchEvent sc ri).1 = Option.map (fun x => x + n) (battingRuns sc) := by
  have hmn := normal_match_true ri rs n hrun hn hpos
  have hme := extra_match_error ri es err hext hbad
  have hcalc : RunCalculator.calculate_run RunCalculator.normalRunCalculator sc ri =
      ScoreCard.add_run sc n := by
    unfold RunCalculator.calculate_run
    dsimp only
    rw [hrun]
    dsimp only
    rw [hn]
  have hnone := add_run_none sc n hr h4 h6
  obtain ⟨bt, bt', hbt, hbt', hruns, hbat, hextr, hw, hbf, hr'⟩ := add_run_spec sc n hr
  unfold dispatchEvent get_run_calculators
  simp only [applyRunCalculators]
  rw [hmn]
  dsimp only
  rw [hcalc]
  rcases har : ScoreCard.add_run sc n with ⟨sc1, e1⟩
  rw [har] at hnone hbt'
  dsimp only at hnone hbt'
  subst hnone
  dsimp only
  rw [hme]
  refine ⟨rfl, ?_⟩
  simp [battingRuns, hbt, hbt', hruns]

/-- C3 witness: the amended behaviour at the concrete malformed event and a
concrete started match. -/
theorem claim_C3_witness :
    ScoreCard.ready sampleScoreCard = true ∧
      dictGet riMalformedExtras "runs_off_bat" = Except.ok "3" ∧
      pyInt "3" = Except.ok 3 ∧
      dictGet riMalformedExtras "extras" = Except.ok "x" ∧
      pyInt "x" = Except.error (PyError.valueError "x") ∧
      (dispatchEvent sampleScoreCard riMalformedExtras).2 = some (PyError.valueError "x") ∧
      battingRuns (dispatchEvent sampleScoreCard riMalformedExtras).1 =
        Option.map (fun x => x + 3) (battingRuns sampleScoreCard) :=
  ⟨by decide, rfl, rfl, rfl, rfl,
    (claim_C3_mutation_persists sampleScoreCard riMalformedExtras "3" "x" 3
      (PyError.valueError "x") (by decide) rfl rfl (by decide) (by decide) (by decide) rfl rfl).1,
    (claim_C3_mutation_persists sampleScoreCard riMalformedExtras "3" "x" 3
      (PyError.valueError "x") (by decide) rfl rfl (by decide) (by decide) (by decide) rfl rfl).2⟩

/-- C9 counterexample: the claim says that whenever all three registered
predicates match, the run, extra and wicket mutations all fire; on the code,
an event with runs_off_bat 4 raises the boundary KeyError inside the run
mutation, so dispatch aborts and the wicket mutation never fires even though
its predicate matched — the wicket count stays 0. -/
theorem claim_C9_counterexample :
    RunCalculator.matchPred RunCalculator.normalRunCalculator riBoundaryWicket = Except.ok true ∧
      RunCalculator.matchPred RunCalculator.extraRunCalculator riBoundaryWicket = Except.ok true ∧
      RunCalculator.matchPred RunCalculator.wicketCalculator riBoundaryWicket = Except.ok true ∧
      (dispatchEvent sampleScoreCard riBoundaryWicket).2 = some (PyError.keyError "4") ∧
      battingWickets (dispatchEvent sampleScoreCard riBoundaryWicket).1 = some 0 := by
  refine ⟨by decide, by decide, by decide, by decide, by decide⟩

/-- C9 amended: the dispatcher never stops after the first matching predicate —
whenever dispatching an event over a started match raises no exception and all
three predicates match, every matching mutation has fired: the wicket count has
advanced by one and the striker's balls faced have advanced by one; when an
earlier matching mutation raises, however, the later matching mutations are
skipped. -/
theorem claim_C9_no_short_circuit (sc : ScoreCard) (ri : RunInfo)
    (hr : sc.ready = true)
    (hok : (dispatchEvent sc ri).2 = none)
    (hmn : RunCalculator.matchPred RunCalculator.normalRunCalculator ri = Except.ok true)
    (hme : RunCalculator.matchPred RunCalculator.extraRunCalculator ri = Except.ok true)
    (hmw : RunCalculator.matchPred RunCalculator.wicketCalculator ri = Except.ok true) :
    battingWickets (dispatchEvent sc ri).1 =
      Option.map (fun w => w + 1) (battingWickets sc) ∧
      battingBallsFacedSum (dispatchEvent sc ri).1 =
        Option.map (fun x => x + 1) (battingBallsFacedSum sc) := by
  unfold dispatchEvent get_run_calculators at hok ⊢
  simp only [applyRunCalculators] at hok ⊢
  rw [hmn] at hok ⊢
  rcases h1 : RunCalculator.calculate_run RunCalculator.normalRunCalculator sc ri with ⟨sc1, e1⟩
  rcases e1 with _ | e1
  · dsimp only at hok ⊢
    rw [hme] at hok ⊢
    rcases h2 : RunCalculator.calculate_run RunCalculator.extraRunCalculator sc1 ri with ⟨sc2, e2⟩
    rcases e2 with _ | e2
    · dsimp only at hok ⊢
      rw [hmw] at hok ⊢
      rcases h3 : RunCalculator.calculate_run RunCalculator.wicketCalculator sc2 ri with ⟨sc3, e3⟩
      rcases e3 with _ | e3
      · dsimp only
        have hn1 := normal_calc_spec sc sc1 ri hr h1
        have h2' : extrasLoop ri sc1 extra_types = (sc2, none) := h2
        have hf2 := extrasLoop_frame ri sc1 extra_types
        rw [h2'] at hf2
        dsimp only at hf2
        have h3' : ScoreCard.add_wicket sc2 = (sc3, none) := h3
        have hw3 := add_wicket_effect sc2
        rw [h3'] at hw3
        dsimp only at hw3
        constructor
        · rw [hw3.1, hf2.1, hn1.2.1]
        · rw [hw3.2, hf2.2, hn1.2.2]
      · rw [h1] at hok
        dsimp only at hok
        rw [h2] at hok
        dsimp only at hok
        rw [h3] at hok
        simp at hok
    · rw [h1] at hok
      dsimp only at hok
      rw [h2] at hok
      simp at hok
  · rw [h1] at hok
    simp at hok

/-- C9 witness: a concrete event matching all three predicates, dispatched
without any raise over a concrete started match. -/
theorem claim_C9_witness :
    ScoreCard.ready sampleScoreCard = true ∧
      (dispatchEvent sampleScoreCard riAllFire).2 = none ∧
      RunCalculator.matchPred RunCalculator.normalRunCalculator riAllFire = Except.ok true ∧
      RunCalculator.matchPred RunCalculator.extraRunCalculator riAllFire = Except.ok true ∧
      RunCalculator.matchPred RunCalculator.wicketCalculator riAllFire = Except.ok true ∧
      battingWickets (dispatchEvent sampleScoreCard riAllFire).1 =
        Option.map (fun w => w + 1) (battingWickets sampleScoreCard) ∧
      battingBallsFacedSum (dispatchEvent sampleScoreCard riAllFire).1 =
        Option.map (fun x => x + 1) (battingBallsFacedSum sampleScoreCard) :=
  ⟨by decide, by decide, by decide, by decide, by decide,
    (claim_C9_no_short_circuit sampleScoreCard riAllFire (by decide) (by decide)
      (by decide) (by decide) (by decide)).1,
    (claim_C9_no_short_circuit sampleScoreCard riAllFire (by decide) (by decide)
      (by decide) (by decide) (by decide)).2⟩

end IplScorecard
